import Mathlib

/-!
Verification of the EAP 7 → EAP 8 POM dependency migrator
(`source/migrators/pom.py`, `source/migrators/base.py`,
`source/models/migrator.py`).

The XML document is embedded as an ordered tree of elements
(ElementTree view: tag, optional text, ordered children).  Tail text and
indentation are not tracked: no migration decision reads them, and the
`_indent_xml` / `ET.tostring` step only affects the serialized bytes, never
the returned result fields.  Python string methods are embedded as
executable functions over the character list of the string so that every
theorem can be checked by evaluation.
-/

namespace Pom

/-! ## Python string primitives -/

/-- Python `s.startswith(p)`. -/
def pyStarts (s p : String) : Bool := p.data.isPrefixOf s.data

/-- Python `s.endswith(p)`. -/
def pyEnds (s p : String) : Bool := p.data.reverse.isPrefixOf s.data.reverse

/-- Auxiliary containment test on character lists. -/
def chContains (needle : List Char) : List Char → Bool
  | [] => needle.isEmpty
  | c :: cs => needle.isPrefixOf (c :: cs) || chContains needle cs

/-- Python `sub in s`. -/
def pyIn (sub s : String) : Bool := chContains sub.data s.data

/-- Python `s.lower()` (ASCII, which covers every string the migrator tests). -/
def pyLower (s : String) : String := ⟨s.data.map Char.toLower⟩

/-- Splitting on a non-empty separator, with fuel bounded by the input length;
left-to-right non-overlapping matches, exactly as Python `str.split(sep)`. -/
def pySplitAux (sep : List Char) : Nat → List Char → List (List Char)
  | _, [] => [[]]
  | 0, l => [l]
  | Nat.succ n, c :: cs =>
    if sep.isPrefixOf (c :: cs) then
      [] :: pySplitAux sep n (List.drop sep.length (c :: cs))
    else
      match pySplitAux sep n cs with
      | [] => [[c]]
      | p :: ps => (c :: p) :: ps

/-- Python `s.split(sep)` for a non-empty separator. -/
def pySplit (s sep : String) : List String :=
  (pySplitAux sep.data (s.data.length + 1) s.data).map (fun l => ⟨l⟩)

/-- Left-to-right non-overlapping replacement with fuel, as Python
`str.replace` with a non-empty pattern. -/
def pyReplaceAux (pat rep : List Char) : Nat → List Char → List Char
  | _, [] => []
  | 0, l => l
  | Nat.succ n, c :: cs =>
    if pat.isPrefixOf (c :: cs) then
      rep ++ pyReplaceAux pat rep n (List.drop pat.length (c :: cs))
    else
      c :: pyReplaceAux pat rep n cs

/-- Python `s.replace(pat, rep)`: every occurrence is replaced. -/
def pyReplace (s pat rep : String) : String :=
  ⟨pyReplaceAux pat.data rep.data (s.data.length + 1) s.data⟩

/-- Python f-string interpolation of an optional string (`None` prints as
the four letters `None`). -/
def pyOptStr : Option String → String
  | none => "None"
  | some s => s

/-- Python truthiness of `Element.text`: `None` and the empty string are
falsy. -/
def pyTruthy : Option String → Bool
  | none => false
  | some s => !(s == "")

/-- Python tuple unpacking `a, b = l` for a two-element target: any other
arity raises a `ValueError`. -/
def unpack2 (l : List String) : Except String (String × String) :=
  match l with
  | [a, b] => .ok (a, b)
  | [] => .error "not enough values to unpack (expected 2, got 0)"
  | [_] => .error "not enough values to unpack (expected 2, got 1)"
  | _ => .error "too many values to unpack (expected 2)"

/-! ## The document tree -/

/-- An XML element as ElementTree presents it: tag, optional text content,
ordered list of child elements. -/
inductive XElem : Type where
  | node : String → Option String → List XElem → XElem

def XElem.tag : XElem → String
  | .node t _ _ => t

def XElem.text : XElem → Option String
  | .node _ s _ => s

def XElem.children : XElem → List XElem
  | .node _ _ c => c

/-- `elem.find(tag)`: first direct child carrying the tag. -/
def findChild (tg : String) : List XElem → Option XElem
  | [] => none
  | c :: cs => if c.tag == tg then some c else findChild tg cs

/-- Assign `found.text = v` where `found` is the first direct child with the
tag (the element the source mutates in place). -/
def setChildText (tg v : String) : List XElem → List XElem
  | [] => []
  | c :: cs =>
    if c.tag == tg then XElem.node c.tag (some v) c.children :: cs
    else c :: setChildText tg v cs

/-- `parent.remove(found)` where `found` is the first direct child with the
tag: drops that child (and with it the whole subtree below it). -/
def removeChild (tg : String) : List XElem → List XElem
  | [] => []
  | c :: cs => if c.tag == tg then cs else c :: removeChild tg cs

/-- Replace the first direct child carrying the tag (used to write back an
in-place mutated child element). -/
def replaceChild (tg : String) (e : XElem) : List XElem → List XElem
  | [] => []
  | c :: cs => if c.tag == tg then e :: cs else c :: replaceChild tg e cs

/-! ## Rule table, change records, results -/

/-- One value of `config.eap7_to_eap8_dependencies`: the dict may carry a
`new_artifact` and/or a `new_version` key. -/
structure RuleEntry where
  newArtifact : Option String
  newVersion : Option String

/-- The rule table `eap7_to_eap8_dependencies`, keyed by `group:artifact`
(dict with unique keys, embedded as a first-match association list). -/
abbrev MRules := List (String × RuleEntry)

def lookupRule : MRules → String → Option RuleEntry
  | [], _ => none
  | (k, m) :: rs, key => if k == key then some m else lookupRule rs key

/-- One change record appended by a phase; each constructor carries exactly
the fields of the corresponding dict literal in the source. -/
inductive MChange : Type where
  | bomUpdate (old new : String) (note : Option String)
  | depMgmtUpdate (old new : String) (versionKept : Option String)
  | depMigration (old new : String)
  | versionRemoved (dependency : String) (oldVersion : Option String) (reason : String)
  | propertyUpdate (name old new : String)
  | pluginUpdate (plugin change : String)

/-- The fields of `MigrationResult` that the POM migrator produces:
`details` is the `details['replacements']` list (empty when never set). -/
structure MigrationResult where
  modified : Bool
  replacements : Nat
  errors : List String
  details : List MChange

/-- `BOMInfo` with its `__post_init__`-computed key. -/
structure BOMInfo where
  groupId : Option String
  artifactId : Option String
  version : Option String
  key : String

/-- The guard `version.text and version.text.startswith('${') and
version.text.endswith('}')` used by Phase 1 and the version cleanup. -/
def isPropertyRef : Option String → Bool
  | none => false
  | some s => !(s == "") && pyStarts s "$\x7b" && pyEnds s "\x7d"

/-! ## The broken ancestor probe -/

/-- ElementTree elements carry no parent pointers, so `elem.find("..")`
cannot reach an ancestor and yields no element. -/
def findDotDot (_e : XElem) : Option XElem := none

/-- The ancestor probe of `_migrate_dependencies` and
`_cleanup_managed_versions`: `parent = dep`, then repeatedly
`parent = parent.find('..')`, breaking out when a tag ending in
`dependencyManagement` appears, with the processing in the loop's `else`.
The very first `find('..')` already yields no element, so the loop always
falls through to `else`: the probe never detects dependencyManagement
ancestry and every listed dependency is processed. -/
def insideDepMgmt (dep : XElem) : Bool :=
  match findDotDot dep with
  | none => false
  | some p => pyEnds p.tag "dependencyManagement"

/-! ## Phase 1: `_update_dependency_management` -/

/-- Processing of one `<dependency>` of the dependencyManagement section:
reads the first scope/type/groupId/artifactId/version children, rewrites the
coordinate when the rule supplies one (`split(':')` may raise), rewrites a
non-property BOM version, and appends exactly one record for every key found
in the rule table.  The source mutates only when the text differs; the
conditional writes here mirror that. -/
def depMgmtEntry (rules : MRules) (cs : List XElem) : Except String (List XElem × List MChange) :=
  match findChild "groupId" cs, findChild "artifactId" cs with
  | some gid, some aid =>
    let verE := findChild "version" cs
    let oldKey := pyOptStr gid.text ++ ":" ++ pyOptStr aid.text
    let isBom := (match findChild "scope" cs with
                  | some s => s.text == some "import"
                  | none => false)
              && (match findChild "type" cs with
                  | some t => t.text == some "pom"
                  | none => false)
    match lookupRule rules oldKey with
    | none => .ok (cs, [])
    | some m =>
      match (match m.newArtifact with
             | none => (Except.ok cs : Except String (List XElem))
             | some na =>
               match unpack2 (pySplit na ":") with
               | .error e => .error e
               | .ok (g, a) =>
                 let cs1 := if gid.text == some g then cs else setChildText "groupId" g cs
                 .ok (if aid.text == some a then cs1 else setChildText "artifactId" a cs1)) with
      | .error e => .error e
      | .ok cs2 =>
        match m.newVersion, verE with
        | some nv, some ver =>
          if isBom then
            if isPropertyRef ver.text then
              .ok (cs2, [.bomUpdate oldKey (m.newArtifact.getD oldKey)
                           (some "Version managed by property")])
            else
              .ok (setChildText "version" nv cs2,
                   [.bomUpdate (oldKey ++ ":" ++ pyOptStr ver.text)
                      (m.newArtifact.getD oldKey ++ ":" ++ nv) none])
          else
            .ok (cs2, [.depMgmtUpdate oldKey (m.newArtifact.getD oldKey)
                         (match verE with | some v => v.text | none => some "none")])
        | _, _ =>
          .ok (cs2, [.depMgmtUpdate oldKey (m.newArtifact.getD oldKey)
                       (match verE with | some v => v.text | none => some "none")])
  | _, _ => .ok (cs, [])

mutual
/-- Rewrite of every `<dependency>` descendant (`findall('.//dependency')`,
document order) inside the dependencyManagement subtree.  The source mutates
an entry before iterating further entries of its snapshot list; an entry's
rewrite only reads and writes the texts of its direct children while deeper
entries are strictly below, so rebuilding the subtrees first and then
applying the entry rewrite to the rebuilt direct children produces the same
tree, with the entry's record placed before the deeper records exactly as
the snapshot order does. -/
def updDMElem (rules : MRules) : XElem → Except String (XElem × List MChange)
  | .node tg tx cs =>
    match updDMList rules cs with
    | .error e => .error e
    | .ok (cs', chIn) =>
      if tg == "dependency" then
        match depMgmtEntry rules cs' with
        | .error e => .error e
        | .ok (cs2, chSelf) => .ok (.node tg tx cs2, chSelf ++ chIn)
      else .ok (.node tg tx cs', chIn)

def updDMList (rules : MRules) : List XElem → Except String (List XElem × List MChange)
  | [] => .ok ([], [])
  | c :: cs =>
    match updDMElem rules c with
    | .error e => .error e
    | .ok (c', ch1) =>
      match updDMList rules cs with
      | .error e => .error e
      | .ok (cs', ch2) => .ok (c' :: cs', ch1 ++ ch2)
end

mutual
/-- `root.find('.//dependencyManagement')`: locate the first such strict
descendant in document order and rewrite it; everything else is untouched. -/
def rwDMElem (rules : MRules) : XElem → Except String (Option (XElem × List MChange))
  | .node tg tx cs =>
    if tg == "dependencyManagement" then
      match updDMList rules cs with
      | .error e => .error e
      | .ok (cs', ch) => .ok (some (.node tg tx cs', ch))
    else
      match rwDMList rules cs with
      | .error e => .error e
      | .ok none => .ok none
      | .ok (some (cs', ch)) => .ok (some (.node tg tx cs', ch))

def rwDMList (rules : MRules) : List XElem → Except String (Option (List XElem × List MChange))
  | [] => .ok none
  | c :: cs =>
    match rwDMElem rules c with
    | .error e => .error e
    | .ok (some (c', ch)) => .ok (some (c' :: cs, ch))
    | .ok none =>
      match rwDMList rules cs with
      | .error e => .error e
      | .ok none => .ok none
      | .ok (some (cs', ch)) => .ok (some (c :: cs', ch))
end

/-- Phase 1, `_update_dependency_management(root)`.  With no
dependencyManagement section the tree and the change list are returned
unchanged; a malformed rule coordinate propagates its `ValueError`. -/
def updateDependencyManagement (rules : MRules) (root : XElem) :
    Except String (XElem × List MChange) :=
  match rwDMList rules root.children with
  | .error e => .error e
  | .ok none => .ok (root, [])
  | .ok (some (cs', ch)) => .ok (.node root.tag root.text cs', ch)

/-! ## Phase 2: `_extract_active_boms` -/

/-- Qualification and extraction for one `<dependency>` of the
dependencyManagement section: a BOMInfo is produced iff the first scope
child's text is `import`, the first type child's text is `pom`, and groupId
and artifactId children exist. -/
def bomOfKids (cs : List XElem) : Option BOMInfo :=
  if ((match findChild "scope" cs with
       | some s => s.text == some "import"
       | none => false)
      && (match findChild "type" cs with
          | some t => t.text == some "pom"
          | none => false)) then
    match findChild "groupId" cs, findChild "artifactId" cs with
    | some g, some a =>
      some { groupId := g.text, artifactId := a.text,
             version := (findChild "version" cs).bind XElem.text,
             key := pyOptStr g.text ++ ":" ++ pyOptStr a.text }
    | _, _ => none
  else none

mutual
def findFirstTag (tg : String) : XElem → Option XElem
  | .node t tx cs => if t == tg then some (.node t tx cs) else findFirstTagL tg cs

def findFirstTagL (tg : String) : List XElem → Option XElem
  | [] => none
  | c :: cs =>
    match findFirstTag tg c with
    | some e => some e
    | none => findFirstTagL tg cs
end

mutual
def collectBomsE : XElem → List BOMInfo
  | .node tg _ cs =>
    (if tg == "dependency" then (bomOfKids cs).toList else []) ++ collectBomsL cs

def collectBomsL : List XElem → List BOMInfo
  | [] => []
  | c :: cs => collectBomsE c ++ collectBomsL cs
end

/-- Phase 2, `_extract_active_boms(root)`: every `<dependency>` descendant of
the first dependencyManagement section, in document order. -/
def extractActiveBoms (root : XElem) : List BOMInfo :=
  match findFirstTagL "dependencyManagement" root.children with
  | none => []
  | some dm => collectBomsL dm.children

/-! ## Phases 3 and 4 share the `.//dependencies/dependency` walk -/

mutual
/-- Walk hitting every element tagged `dependency` whose parent is tagged
`dependencies` (`findall('.//dependencies/dependency')`), in document order.
Each hit first passes the (vacuous) `insideDepMgmt` probe and is then
handed to the per-entry processor `f`.  As in `updDMElem`, subtrees are
rebuilt before the entry processor runs on the rebuilt children; the
processor only touches direct children, deeper hits are strictly below, and
a subtree detached by the processor was already fully processed, matching
the snapshot iteration of the source. -/
def depsElem (f : List XElem → Except String (List XElem × List MChange)) :
    XElem → Except String (XElem × List MChange)
  | .node tg tx cs =>
    match depsList f (tg == "dependencies") cs with
    | .error e => .error e
    | .ok (cs', ch) => .ok (.node tg tx cs', ch)

def depsList (f : List XElem → Except String (List XElem × List MChange))
    (under : Bool) : List XElem → Except String (List XElem × List MChange)
  | [] => .ok ([], [])
  | c :: cs =>
    match depsElem f c with
    | .error e => .error e
    | .ok (c1, chIn) =>
      match (if under && c.tag == "dependency" && !insideDepMgmt c then
               match f c1.children with
               | .error e => Except.error e
               | .ok (k2, chSelf) => Except.ok (XElem.node c1.tag c1.text k2, chSelf)
             else Except.ok (c1, ([] : List MChange))) with
      | .error e => .error e
      | .ok (c2, chSelf) =>
        match depsList f under cs with
        | .error e => .error e
        | .ok (rest, chR) => .ok (c2 :: rest, chSelf ++ chIn ++ chR)
end

/-- Processing of one regular dependency in `_migrate_dependencies`: only a
rule that supplies a replacement coordinate acts, and only the coordinate is
rewritten (`split(':')` may raise). -/
def depEntryC (rules : MRules) (cs : List XElem) : Except String (List XElem × List MChange) :=
  match findChild "groupId" cs, findChild "artifactId" cs with
  | some gid, some aid =>
    let oldKey := pyOptStr gid.text ++ ":" ++ pyOptStr aid.text
    match lookupRule rules oldKey with
    | some m =>
      match m.newArtifact with
      | some na =>
        match unpack2 (pySplit na ":") with
        | .error e => .error e
        | .ok (g, a) =>
          let cs1 := if gid.text == some g then cs else setChildText "groupId" g cs
          let cs2 := if aid.text == some a then cs1 else setChildText "artifactId" a cs1
          .ok (cs2, [.depMigration oldKey na])
      | none => .ok (cs, [])
    | none => .ok (cs, [])
  | _, _ => .ok (cs, [])

/-- Phase 3, `_migrate_dependencies(root)`.  The walk starts below the root:
the root element itself is never the `dependencies` parent of a hit. -/
def migrateDependencies (rules : MRules) (root : XElem) :
    Except String (XElem × List MChange) :=
  match depsList (depEntryC rules) false root.children with
  | .error e => .error e
  | .ok (cs', ch) => .ok (.node root.tag root.text cs', ch)

/-- Processing of one dependency in `_cleanup_managed_versions`: a managed
coordinate with a version element whose text is not a property reference
loses that version element. -/
def depEntryD (managed : List String) (cs : List XElem) :
    Except String (List XElem × List MChange) :=
  match findChild "groupId" cs, findChild "artifactId" cs, findChild "version" cs with
  | some gid, some aid, some ver =>
    let key := pyOptStr gid.text ++ ":" ++ pyOptStr aid.text
    if managed.contains key then
      if isPropertyRef ver.text then .ok (cs, [])
      else .ok (removeChild "version" cs, [.versionRemoved key ver.text "Managed by BOM"])
    else .ok (cs, [])
  | _, _, _ => .ok (cs, [])

/-- `any('eap' in bom.artifact_id.lower() for bom in active_boms)`: lazy
left-to-right; an entry whose artifactId text was `None` raises before later
entries are looked at. -/
def hasEapBom : List BOMInfo → Except String Bool
  | [] => .ok false
  | b :: bs =>
    match b.artifactId with
    | none => .error "AttributeError: NoneType object has no attribute lower"
    | some a => if pyIn "eap" (pyLower a) then .ok true else hasEapBom bs

/-- Phase 4, `_cleanup_managed_versions(root, active_boms)`: a no-op unless
some active BOM's artifactId contains `eap` case-insensitively. -/
def cleanupManagedVersions (managed : List String) (boms : List BOMInfo)
    (root : XElem) : Except String (XElem × List MChange) :=
  match hasEapBom boms with
  | .error e => .error e
  | .ok false => .ok (root, [])
  | .ok true =>
    match depsList (depEntryD managed) false root.children with
    | .error e => .error e
    | .ok (cs', ch) => .ok (.node root.tag root.text cs', ch)

/-! ## Phase 5: `_update_properties` -/

/-- The new text for one property: `javax.` → `jakarta.` (Python `replace`,
so every occurrence), then the hardcoded version literals. -/
def propNewText (nm t0 : String) : String :=
  let t1 := if pyIn "javax" t0 then pyReplace t0 "javax." "jakarta." else t0
  if pyIn "version" (pyLower nm) then
    if pyIn "eap" (pyLower nm) && pyIn "7.4" t1 then "8.0.0.GA"
    else if pyIn "hibernate" (pyLower nm) && pyStarts t1 "5." then "6.2.0.Final"
    else if pyIn "resteasy" (pyLower nm) && (pyStarts t1 "3." || pyStarts t1 "4.") then
      "6.2.0.Final"
    else t1
  else t1

/-- One direct child of the properties element: the name strips the
namespace brace; falsy text is skipped; a record is appended only when the
text actually changed. -/
def propKidStep : XElem → XElem × List MChange
  | .node tg tx cs =>
    let nm := (pySplit tg "\x7d").getLastD tg
    match tx with
    | some t =>
      if t == "" then (.node tg tx cs, [])
      else
        let nt := propNewText nm t
        if nt == t then (.node tg tx cs, [])
        else (.node tg (some nt) cs, [.propertyUpdate nm t nt])
    | none => (.node tg tx cs, [])

/-- Rewrite of the properties element: every direct child in order. -/
def propsRewrite (props : XElem) : XElem × List MChange :=
  let stepped := props.children.map propKidStep
  (.node props.tag props.text (stepped.map Prod.fst), (stepped.map Prod.snd).flatten)

mutual
def propsFirstE : XElem → Option (XElem × List MChange)
  | .node tg tx cs =>
    if tg == "properties" then some (propsRewrite (.node tg tx cs))
    else
      match propsFirstL cs with
      | none => none
      | some (cs', ch) => some (.node tg tx cs', ch)

def propsFirstL : List XElem → Option (List XElem × List MChange)
  | [] => none
  | c :: cs =>
    match propsFirstE c with
    | some (c', ch) => some (c' :: cs, ch)
    | none =>
      match propsFirstL cs with
      | none => none
      | some (cs', ch) => some (c :: cs', ch)
end

/-- Phase 5, `_update_properties(root)`: the first `properties` descendant. -/
def updateProperties (root : XElem) : XElem × List MChange :=
  match propsFirstL root.children with
  | none => (root, [])
  | some (cs', ch) => (.node root.tag root.text cs', ch)

/-! ## Phase 6: `_update_plugins` -/

/-- The `in ['1.8', '8']` membership test (false for a `None` text). -/
def legacyLevel (t : Option String) : Bool := t == some "1.8" || t == some "8"

/-- The XPath predicate `[artifactId="maven-compiler-plugin"]`: some
artifactId child whose text equals the literal (the trees considered carry
plain text inside artifactId, so the element text is the full inner text). -/
def hasCompilerAid (cs : List XElem) : Bool :=
  cs.any (fun c => c.tag == "artifactId" && c.text == some "maven-compiler-plugin")

/-- Rewrite of one matched plugin: when source and target configuration
children exist and EITHER text is a legacy level, both are removed and a
`release = 11` element is appended at the end of the configuration. -/
def pluginStep (cs : List XElem) : List XElem × List MChange :=
  match findChild "configuration" cs with
  | none => (cs, [])
  | some cfg =>
    match findChild "source" cfg.children, findChild "target" cfg.children with
    | some src, some tgt =>
      if legacyLevel src.text || legacyLevel tgt.text then
        let k1 := removeChild "source" cfg.children
        let k2 := removeChild "target" k1
        let k3 := k2 ++ [XElem.node "release" (some "11") []]
        (replaceChild "configuration" (.node cfg.tag cfg.text k3) cs,
         [.pluginUpdate "maven-compiler-plugin" "Updated to use release=11"])
      else (cs, [])
    | _, _ => (cs, [])

mutual
def plugElem : XElem → XElem × List MChange
  | .node tg tx cs =>
    let r := plugList cs
    if tg == "plugin" && hasCompilerAid cs then
      let s := pluginStep r.1
      (.node tg tx s.1, s.2 ++ r.2)
    else (.node tg tx r.1, r.2)

def plugList : List XElem → List XElem × List MChange
  | [] => ([], [])
  | c :: cs =>
    let r1 := plugElem c
    let r2 := plugList cs
    (r1.1 :: r2.1, r1.2 ++ r2.2)
end

/-- Phase 6, `_update_plugins(root)`: every matched compiler plugin
descendant, in document order. -/
def updatePlugins (root : XElem) : XElem × List MChange :=
  let r := plugList root.children
  (.node root.tag root.text r.1, r.2)

/-! ## `migrate_file` -/

/-- `_write_file` outcome: backup failures are swallowed with a warning; in
dry-run nothing is written and the call reports success; otherwise success
is the filesystem's verdict, supplied as the `writeOk` oracle. -/
def writeFileOk (dryRun writeOk : Bool) : Bool := if dryRun then true else writeOk

def errResult (msg : String) : MigrationResult :=
  { modified := false, replacements := 0, errors := [msg], details := [] }

/-- `migrate_file`: parse, the five phases in order, then the write.  A
parse failure or an exception escaping a phase is caught at the file
boundary with `modified` still false and no detail list; a failed write
appends an error and forces `modified` back to false. `parsed` stands for
the outcome of `ET.parse`. -/
def migrateFile (rules : MRules) (managed : List String) (dryRun : Bool)
    (parsed : Except String XElem) (writeOk : Bool) : MigrationResult :=
  match parsed with
  | .error e => errResult ("XML parse error: " ++ e)
  | .ok root =>
    match updateDependencyManagement rules root with
    | .error e => errResult ("Unexpected error: " ++ e)
    | .ok (r1, ch1) =>
      let boms := extractActiveBoms r1
      match migrateDependencies rules r1 with
      | .error e => errResult ("Unexpected error: " ++ e)
      | .ok (r2, ch2) =>
        match cleanupManagedVersions managed boms r2 with
        | .error e => errResult ("Unexpected error: " ++ e)
        | .ok (r3, ch3) =>
          let pr := updateProperties r3
          let pl := updatePlugins pr.1
          let all := ch1 ++ ch2 ++ ch3 ++ pr.2 ++ pl.2
          let n := all.length
          if n > 0 then
            if writeFileOk dryRun writeOk then
              { modified := true, replacements := n, errors := [], details := all }
            else
              { modified := false, replacements := n,
                errors := ["Failed to write file"], details := all }
          else
            { modified := false, replacements := n, errors := [], details := all }

/-! ## The built-in tables -/

/-- `MigrationConfig.eap7_to_eap8_dependencies`, the built-in default rule
table. -/
def defaultRules : MRules := [
  ("org.jboss.bom:jboss-eap-jakartaee8",
   { newArtifact := some "org.jboss.bom:jboss-eap-ee", newVersion := some "8.0.0.GA" }),
  ("org.jboss.bom:jboss-eap-jakartaee8-with-tools",
   { newArtifact := some "org.jboss.bom:jboss-eap-ee-with-tools", newVersion := some "8.0.0.GA" }),
  ("org.jboss.spec.javax.ejb:jboss-ejb-api_3.2_spec",
   { newArtifact := some "jakarta.ejb:jakarta.ejb-api", newVersion := some "4.0.1" }),
  ("org.jboss.spec.javax.servlet:jboss-servlet-api_4.0_spec",
   { newArtifact := some "jakarta.servlet:jakarta.servlet-api", newVersion := some "6.0.0" }),
  ("org.jboss.spec.javax.ws.rs:jboss-jaxrs-api_2.1_spec",
   { newArtifact := some "jakarta.ws.rs:jakarta.ws.rs-api", newVersion := some "3.1.0" }),
  ("org.jboss.spec.javax.xml.bind:jboss-jaxb-api_2.3_spec",
   { newArtifact := some "jakarta.xml.bind:jakarta.xml.bind-api", newVersion := some "4.0.0" }),
  ("org.jboss.spec.javax.faces:jboss-jsf-api_2.3_spec",
   { newArtifact := some "jakarta.faces:jakarta.faces-api", newVersion := some "4.0.1" }),
  ("org.jboss.spec.javax.annotation:jboss-annotations-api_1.3_spec",
   { newArtifact := some "jakarta.annotation:jakarta.annotation-api", newVersion := some "2.1.1" }),
  ("org.jboss.spec.javax.transaction:jboss-transaction-api_1.3_spec",
   { newArtifact := some "jakarta.transaction:jakarta.transaction-api", newVersion := some "2.0.1" }),
  ("org.jboss.spec.javax.json:jboss-json-api_1.1_spec",
   { newArtifact := some "jakarta.json:jakarta.json-api", newVersion := some "2.1.1" }),
  ("org.hibernate:hibernate-core",
   { newArtifact := none, newVersion := some "6.2.0.Final" }),
  ("org.hibernate:hibernate-entitymanager",
   { newArtifact := some "org.hibernate.orm:hibernate-core", newVersion := some "6.2.0.Final" }),
  ("org.hibernate.validator:hibernate-validator",
   { newArtifact := none, newVersion := some "8.0.0.Final" }),
  ("org.jboss.resteasy:resteasy-jaxrs",
   { newArtifact := some "org.jboss.resteasy:resteasy-core", newVersion := some "6.2.0.Final" }),
  ("org.jboss.resteasy:resteasy-client",
   { newArtifact := some "org.jboss.resteasy:resteasy-client-api", newVersion := some "6.2.0.Final" }),
  ("org.jboss.logging:jboss-logging",
   { newArtifact := none, newVersion := some "3.5.0.Final" }),
  ("org.wildfly.security:wildfly-elytron",
   { newArtifact := none, newVersion := some "2.0.0.Final" }),
  ("com.sun.mail:javax.mail",
   { newArtifact := some "jakarta.mail:jakarta.mail-api", newVersion := some "2.1.0" }),
  ("javax.validation:validation-api",
   { newArtifact := some "jakarta.validation:jakarta.validation-api", newVersion := some "3.0.2" })]

/-- `_get_managed_dependencies()`, the built-in managed coordinate set. -/
def defaultManaged : List String := [
  "jakarta.ejb:jakarta.ejb-api",
  "jakarta.servlet:jakarta.servlet-api",
  "jakarta.persistence:jakarta.persistence-api",
  "jakarta.validation:jakarta.validation-api",
  "jakarta.ws.rs:jakarta.ws.rs-api",
  "jakarta.enterprise:jakarta.enterprise.cdi-api",
  "jakarta.inject:jakarta.inject-api",
  "jakarta.faces:jakarta.faces-api",
  "jakarta.json:jakarta.json-api",
  "jakarta.xml.bind:jakarta.xml.bind-api",
  "jakarta.annotation:jakarta.annotation-api",
  "jakarta.transaction:jakarta.transaction-api",
  "jakarta.websocket:jakarta.websocket-api",
  "jakarta.jms:jakarta.jms-api",
  "org.hibernate.orm:hibernate-core",
  "org.hibernate:hibernate-core",
  "org.hibernate.validator:hibernate-validator",
  "org.jboss.resteasy:resteasy-core",
  "org.jboss.resteasy:resteasy-client-api",
  "org.jboss.logging:jboss-logging",
  "org.wildfly.security:wildfly-elytron"]

/-! ## Concrete descriptors used to evaluate the phases -/

def gidHib : XElem := .node "groupId" (some "org.hibernate") []

def aidHib : XElem := .node "artifactId" (some "hibernate-core") []

def verHib : XElem := .node "version" (some "6.2.0.Final") []

/-- Children of an already-migrated managed entry: the rule for
`org.hibernate:hibernate-core` supplies only a version, and the version
already equals it. -/
def dHibKids : List XElem := [gidHib, aidHib, verHib]

def dHib : XElem := .node "dependency" none dHibKids

/-- A descriptor whose only entry is already fully migrated. -/
def pomHib : XElem := .node "project" none [
  .node "dependencyManagement" none [
    .node "dependencies" none [dHib]]]

/-- The record Phase 1 appends for that entry on every run. -/
def hibChange : MChange :=
  .depMgmtUpdate "org.hibernate:hibernate-core" "org.hibernate:hibernate-core"
    (some "6.2.0.Final")

/-- The entry rule for `org.hibernate:hibernate-core` in the default table. -/
def ruleHib : RuleEntry := { newArtifact := none, newVersion := some "6.2.0.Final" }

/-- An EAP BOM import entry (scope `import`, type `pom`). -/
def bomDep : XElem := .node "dependency" none [
  .node "groupId" (some "org.jboss.bom") [],
  .node "artifactId" (some "jboss-eap-ee") [],
  .node "version" (some "8.0.0.GA") [],
  .node "type" (some "pom") [],
  .node "scope" (some "import") []]

/-- The BOMInfo Phase 2 extracts from `bomDep`. -/
def bomInfoEap : BOMInfo :=
  { groupId := some "org.jboss.bom", artifactId := some "jboss-eap-ee",
    version := some "8.0.0.GA", key := "org.jboss.bom:jboss-eap-ee" }

/-- A managed-catalogue dependency with a literal version, declared INSIDE
dependencyManagement. -/
def ejbDep : XElem := .node "dependency" none [
  .node "groupId" (some "jakarta.ejb") [],
  .node "artifactId" (some "jakarta.ejb-api") [],
  .node "version" (some "4.0.1") []]

/-- Same entry with its version element gone. -/
def ejbDepNoVer : XElem := .node "dependency" none [
  .node "groupId" (some "jakarta.ejb") [],
  .node "artifactId" (some "jakarta.ejb-api") []]

/-- A descriptor whose dependencyManagement section holds an active EAP BOM
and a managed dependency carrying a literal version. -/
def pomC2 : XElem := .node "project" none [
  .node "dependencyManagement" none [.node "dependencies" none [bomDep, ejbDep]]]

/-- `pomC2` after the version cleanup: the version element inside
dependencyManagement is gone. -/
def pomC2After : XElem := .node "project" none [
  .node "dependencyManagement" none [.node "dependencies" none [bomDep, ejbDepNoVer]]]

/-- A version element whose own text is a literal but which encloses a
version element carrying a property placeholder. -/
def verNested : XElem :=
  .node "version" (some "4.0.1") [.node "version" (some "$\x7bv\x7d") []]

def ejbDepNested : XElem := .node "dependency" none [
  .node "groupId" (some "jakarta.ejb") [],
  .node "artifactId" (some "jakarta.ejb-api") [],
  verNested]

/-- Active EAP BOM plus a regular managed dependency whose version element
encloses a placeholder version element. -/
def pomC3 : XElem := .node "project" none [
  .node "dependencyManagement" none [.node "dependencies" none [bomDep]],
  .node "dependencies" none [ejbDepNested]]

/-- `pomC3` after the version cleanup: the enclosing version element was
removed together with the placeholder element inside it. -/
def pomC3After : XElem := .node "project" none [
  .node "dependencyManagement" none [.node "dependencies" none [bomDep]],
  .node "dependencies" none [ejbDepNoVer]]

mutual
/-- Number of elements tagged `version` whose text is a property
placeholder, over the whole subtree. -/
def countPhE : XElem → Nat
  | .node tg tx cs => (if tg == "version" && isPropertyRef tx then 1 else 0) + countPhL cs

def countPhL : List XElem → Nat
  | [] => 0
  | c :: cs => countPhE c + countPhL cs
end

def srcC5 : XElem := .node "source" (some "1.8") []

def tgtC5 : XElem := .node "target" (some "11") []

def cfgC5 : XElem := .node "configuration" none [srcC5, tgtC5]

/-- A compiler plugin whose source is the legacy level but whose target is
not. -/
def plgC5Kids : List XElem := [.node "artifactId" (some "maven-compiler-plugin") [], cfgC5]

def pomC5 : XElem := .node "project" none [.node "build" none [.node "plugins" none [
  .node "plugin" none plgC5Kids]]]

/-- `pomC5` after the plugin phase: source AND target removed, release
inserted. -/
def pomC5After : XElem := .node "project" none [.node "build" none [.node "plugins" none [
  .node "plugin" none [
    .node "artifactId" (some "maven-compiler-plugin") [],
    .node "configuration" none [.node "release" (some "11") []]]]]]

/-- A property whose text contains the platform namespace twice. -/
def pomC6 : XElem := .node "project" none [.node "properties" none [
  .node "api.pkgs" (some "javax.servlet,javax.ejb") []]]

/-- `pomC6` after the property phase: both occurrences rewritten. -/
def pomC6After : XElem := .node "project" none [.node "properties" none [
  .node "api.pkgs" (some "jakarta.servlet,jakarta.ejb") []]]

/-- A rule table whose replacement coordinate lacks the colon-separated
group/artifact shape. -/
def badRules : MRules := [("com.legacy:widget",
  { newArtifact := some "brokenvalue", newVersion := none })]

def c7Kids : List XElem := [
  .node "groupId" (some "com.legacy") [],
  .node "artifactId" (some "widget") [],
  .node "version" (some "1.0") []]

/-- A descriptor hitting the malformed rule, which also carries a property
that the property phase would rewrite if it ran. -/
def pomC7 : XElem := .node "project" none [
  .node "dependencyManagement" none [.node "dependencies" none [
    .node "dependency" none c7Kids]],
  .node "properties" none [.node "api.pkgs" (some "javax.x") []]]

/-- A managed entry with scope `import` but no type element. -/
def pomScopeOnly : XElem := .node "project" none [
  .node "dependencyManagement" none [.node "dependencies" none [
    .node "dependency" none [
      .node "groupId" (some "g") [],
      .node "artifactId" (some "a") [],
      .node "scope" (some "import") []]]]]

/-- A managed entry with type `pom` but no scope element. -/
def pomTypeOnly : XElem := .node "project" none [
  .node "dependencyManagement" none [.node "dependencies" none [
    .node "dependency" none [
      .node "groupId" (some "g") [],
      .node "artifactId" (some "a") [],
      .node "type" (some "pom") []]]]]

mutual
/-- How a phase may relate an input tree to its output without ever touching
a placeholder version: tags and texts agree except that a text may change
freely when the element is not a placeholder-text version element, and a
child (with its whole subtree) may be dropped only when it is a version
element whose own text is not a property placeholder. -/
inductive PPres : XElem → XElem → Prop where
  | node (tg : String) (tx tx' : Option String) (cs cs' : List XElem) :
      (tg = "version" → isPropertyRef tx = true → tx' = tx) →
      PPresL cs cs' → PPres (.node tg tx cs) (.node tg tx' cs')

inductive PPresL : List XElem → List XElem → Prop where
  | nil : PPresL [] []
  | keep {c c' : XElem} {cs cs' : List XElem} :
      PPres c c' → PPresL cs cs' → PPresL (c :: cs) (c' :: cs')
  | drop {c : XElem} {cs cs' : List XElem} :
      c.tag = "version" → isPropertyRef c.text = false →
      PPresL cs cs' → PPresL (c :: cs) cs'
end

/-! ## Placeholder-version preservation: auxiliary lemmas -/


mutual
theorem ppres_refl : ∀ t : XElem, PPres t t
  | .node tg tx cs => .node tg tx tx cs cs (fun _ _ => rfl) (ppresl_refl cs)

theorem ppresl_refl : ∀ l : List XElem, PPresL l l
  | [] => .nil
  | c :: cs => .keep (ppres_refl c) (ppresl_refl cs)
end

mutual
theorem ppres_trans : ∀ {a b c : XElem}, PPres a b → PPres b c → PPres a c
  | _, _, c0, .node tg tx tx' cs cs' hcond hl, h2 => by
    cases h2 with
    | node _ _ tx'' _ cs'' hcond2 hl2 =>
      refine .node tg tx tx'' cs cs'' (fun hv hp => ?_) (ppresl_trans hl hl2)
      have e1 : tx' = tx := hcond hv hp
      have e2 : tx'' = tx' := hcond2 hv (by rw [e1]; exact hp)
      rw [e2, e1]

theorem ppresl_trans : ∀ {a b c : List XElem}, PPresL a b → PPresL b c → PPresL a c
  | _, _, _, .nil, h2 => h2
  | _, _, c0, .keep p1 r1, h2 => by
    cases h2 with
    | keep p2 r2 => exact .keep (ppres_trans p1 p2) (ppresl_trans r1 r2)
    | drop htag hph r2 =>
      cases p1 with
      | node tg tx tx' cs cs' hcond hl =>
        refine .drop ?_ ?_ (ppresl_trans r1 r2)
        · exact htag
        · by_contra hc
          rw [Bool.not_eq_false] at hc
          simp only [XElem.text] at hc hph
          simp only [XElem.tag] at htag
          have e1 : tx' = tx := hcond htag hc
          rw [e1, hc] at hph
          cases hph
  | _, _, _, .drop htag hph r1, h2 => .drop htag hph (ppresl_trans r1 h2)
end

theorem ppresl_set_of_ne (tg v : String) (hne : tg ≠ "version") :
    ∀ cs : List XElem, PPresL cs (setChildText tg v cs) := by
  intro cs
  induction cs with
  | nil => exact .nil
  | cons c cs ih =>
    unfold setChildText
    split
    · next hc =>
      refine .keep ?_ (ppresl_refl cs)
      cases c with
      | node ct cx ck =>
        simp only [XElem.tag] at hc
        have hct : ct = tg := by
          have := eq_of_beq hc
          exact this
        refine .node ct cx (some v) ck ck (fun hv _ => ?_) (ppresl_refl ck)
        exact absurd (hct ▸ hv) hne
    · exact .keep (ppres_refl c) ih

theorem ppresl_set_version (v : String) :
    ∀ (cs : List XElem) (e : XElem), findChild "version" cs = some e →
      isPropertyRef e.text = false → PPresL cs (setChildText "version" v cs) := by
  intro cs
  induction cs with
  | nil => intro e he _; cases he
  | cons c cs ih =>
    intro e he hph
    unfold setChildText
    unfold findChild at he
    split
    · next hc =>
      rw [if_pos hc] at he
      injection he with he'
      subst he'
      refine .keep ?_ (ppresl_refl cs)
      cases c with
      | node ct cx ck =>
        simp only [XElem.text] at hph
        refine .node ct cx (some v) ck ck (fun _ hp => ?_) (ppresl_refl ck)
        rw [hph] at hp
        cases hp
    · next hc =>
      rw [if_neg hc] at he
      exact .keep (ppres_refl c) (ih e he hph)

theorem ppresl_remove_version :
    ∀ (cs : List XElem) (e : XElem), findChild "version" cs = some e →
      isPropertyRef e.text = false → PPresL cs (removeChild "version" cs) := by
  intro cs
  induction cs with
  | nil => intro e he _; cases he
  | cons c cs ih =>
    intro e he hph
    unfold removeChild
    unfold findChild at he
    split
    · next hc =>
      rw [if_pos hc] at he
      injection he with he'
      subst he'
      exact .drop (eq_of_beq hc) hph (ppresl_refl cs)
    · next hc =>
      rw [if_neg hc] at he
      exact .keep (ppres_refl c) (ih e he hph)

theorem findChild_set_ne (tgA tgB v : String) (hne : tgA ≠ tgB) :
    ∀ cs : List XElem, findChild tgB (setChildText tgA v cs) = findChild tgB cs := by
  intro cs
  induction cs with
  | nil => rfl
  | cons c cs ih =>
    unfold setChildText
    split
    · next hc =>
      cases c with
      | node ct cx ck =>
        simp only [XElem.tag] at hc
        have hb : (ct == tgB) = false := by
          rw [eq_of_beq hc]
          exact beq_eq_false_iff_ne.mpr hne
        unfold findChild
        simp [XElem.tag, hb]
    · next hc =>
      unfold findChild
      split
      · rfl
      · exact ih

/-- The optional coordinate rewrites of Phase 1/Phase 3 relate input to
output children. -/
theorem ppresl_coord_sets (g a : String) (gidt aidt : Option String) (cs : List XElem) :
    PPresL cs (if (aidt == some a) = true
               then (if (gidt == some g) = true then cs else setChildText "groupId" g cs)
               else setChildText "artifactId" a
                      (if (gidt == some g) = true then cs else setChildText "groupId" g cs)) := by
  have h1 : PPresL cs (if (gidt == some g) = true then cs else setChildText "groupId" g cs) := by
    split
    · exact ppresl_refl cs
    · exact ppresl_set_of_ne "groupId" g (by decide) cs
  split
  · exact h1
  · exact ppresl_trans h1 (ppresl_set_of_ne "artifactId" a (by decide) _)

theorem findChild_coord_sets (g a : String) (gidt aidt : Option String) (cs : List XElem) :
    findChild "version" (if (aidt == some a) = true
               then (if (gidt == some g) = true then cs else setChildText "groupId" g cs)
               else setChildText "artifactId" a
                      (if (gidt == some g) = true then cs else setChildText "groupId" g cs)) =
      findChild "version" cs := by
  have h1 : findChild "version" (if (gidt == some g) = true then cs
      else setChildText "groupId" g cs) = findChild "version" cs := by
    split
    · rfl
    · exact findChild_set_ne "groupId" "version" g (by decide) cs
  split
  · exact h1
  · rw [findChild_set_ne "artifactId" "version" a (by decide)]
    exact h1

/-- One Phase-1 entry never alters a placeholder version and removes
nothing. -/
theorem depMgmtEntry_ppresl (rules : MRules) :
    ∀ (cs : List XElem) (out : List XElem × List MChange),
      depMgmtEntry rules cs = .ok out → PPresL cs out.1 := by
  intro cs out h
  unfold depMgmtEntry at h
  rcases hg : findChild "groupId" cs with _ | gid <;> simp only [hg] at h
  · injection h with h1; rw [← h1]; exact ppresl_refl cs
  rcases ha : findChild "artifactId" cs with _ | aid <;> simp only [ha] at h
  · injection h with h1; rw [← h1]; exact ppresl_refl cs
  rcases hl : lookupRule rules (pyOptStr gid.text ++ ":" ++ pyOptStr aid.text) with _ | m <;>
    simp only [hl] at h
  · injection h with h1; rw [← h1]; exact ppresl_refl cs
  rcases hna : m.newArtifact with _ | na <;> simp only [hna] at h
  · -- no coordinate rewrite: cs2 = cs
    rcases hnv : m.newVersion with _ | nv <;> simp only [hnv] at h
    · injection h with h1; rw [← h1]; exact ppresl_refl cs
    rcases hv : findChild "version" cs with _ | ver <;> simp only [hv] at h
    · injection h with h1; rw [← h1]; exact ppresl_refl cs
    split at h
    · split at h
      · injection h with h1; rw [← h1]; exact ppresl_refl cs
      · next hph =>
        injection h with h1; rw [← h1]
        exact ppresl_set_version nv cs ver hv (Bool.not_eq_true _ ▸ hph)
    · injection h with h1; rw [← h1]; exact ppresl_refl cs
  · -- coordinate rewrite
    rcases hun : unpack2 (pySplit na ":") with e | ga <;> simp only [hun] at h
    · cases h
    obtain ⟨g, a⟩ := ga
    have hcs2 : PPresL cs (if (aid.text == some a) = true
        then (if (gid.text == some g) = true then cs else setChildText "groupId" g cs)
        else setChildText "artifactId" a
              (if (gid.text == some g) = true then cs else setChildText "groupId" g cs)) :=
      ppresl_coord_sets g a gid.text aid.text cs
    have hfv : findChild "version" (if (aid.text == some a) = true
        then (if (gid.text == some g) = true then cs else setChildText "groupId" g cs)
        else setChildText "artifactId" a
              (if (gid.text == some g) = true then cs else setChildText "groupId" g cs)) =
        findChild "version" cs :=
      findChild_coord_sets g a gid.text aid.text cs
    rcases hnv : m.newVersion with _ | nv <;> simp only [hnv] at h
    · injection h with h1; rw [← h1]; exact hcs2
    rcases hv : findChild "version" cs with _ | ver <;> simp only [hv] at h
    · injection h with h1; rw [← h1]; exact hcs2
    split at h
    · split at h
      · injection h with h1; rw [← h1]; exact hcs2
      · next hph =>
        injection h with h1; rw [← h1]
        refine ppresl_trans hcs2 (ppresl_set_version nv _ ver ?_ ?_)
        · rw [hfv]; exact hv
        · exact Bool.not_eq_true _ ▸ hph
    · injection h with h1; rw [← h1]; exact hcs2

/-- One Phase-4 entry only ever drops a non-placeholder version element. -/
theorem depEntryD_ppresl (managed : List String) :
    ∀ (cs : List XElem) (out : List XElem × List MChange),
      depEntryD managed cs = .ok out → PPresL cs out.1 := by
  intro cs out h
  unfold depEntryD at h
  rcases hg : findChild "groupId" cs with _ | gid <;> simp only [hg] at h
  · injection h with h1; rw [← h1]; exact ppresl_refl cs
  rcases ha : findChild "artifactId" cs with _ | aid <;> simp only [ha] at h
  · injection h with h1; rw [← h1]; exact ppresl_refl cs
  rcases hv : findChild "version" cs with _ | ver <;> simp only [hv] at h
  · injection h with h1; rw [← h1]; exact ppresl_refl cs
  split at h
  · split at h
    · injection h with h1; rw [← h1]; exact ppresl_refl cs
    · next hph =>
      injection h with h1; rw [← h1]
      exact ppresl_remove_version cs ver hv (Bool.not_eq_true _ ▸ hph)
  · injection h with h1; rw [← h1]; exact ppresl_refl cs

mutual
theorem updDMElem_ppres (rules : MRules) :
    ∀ (e : XElem) (out : XElem × List MChange),
      updDMElem rules e = .ok out → PPres e out.1
  | .node tg tx cs, out, h => by
    unfold updDMElem at h
    rcases hl : updDMList rules cs with e1 | ⟨cs', chIn⟩ <;> simp only [hl] at h
    · cases h
    split at h
    · rcases hd : depMgmtEntry rules cs' with e2 | ⟨cs2, chS⟩ <;> simp only [hd] at h
      · cases h
      injection h with h1
      rw [← h1]
      exact .node tg tx tx cs cs2 (fun _ _ => rfl)
        (ppresl_trans (updDMList_ppres rules cs (cs', chIn) hl)
          (depMgmtEntry_ppresl rules cs' (cs2, chS) hd))
    · injection h with h1
      rw [← h1]
      exact .node tg tx tx cs cs' (fun _ _ => rfl) (updDMList_ppres rules cs (cs', chIn) hl)

theorem updDMList_ppres (rules : MRules) :
    ∀ (l : List XElem) (out : List XElem × List MChange),
      updDMList rules l = .ok out → PPresL l out.1
  | [], out, h => by
    injection h with h1
    rw [← h1]
    exact .nil
  | c :: cs, out, h => by
    unfold updDMList at h
    rcases hc : updDMElem rules c with e1 | ⟨c', ch1⟩ <;> simp only [hc] at h
    · cases h
    rcases hcs : updDMList rules cs with e2 | ⟨cs', ch2⟩ <;> simp only [hcs] at h
    · cases h
    injection h with h1
    rw [← h1]
    exact .keep (updDMElem_ppres rules c (c', ch1) hc)
      (updDMList_ppres rules cs (cs', ch2) hcs)
end

mutual
theorem rwDMElem_ppres (rules : MRules) :
    ∀ (e : XElem) (e' : XElem) (ch : List MChange),
      rwDMElem rules e = .ok (some (e', ch)) → PPres e e'
  | .node tg tx cs, e', ch, h => by
    unfold rwDMElem at h
    split at h
    · rcases hl : updDMList rules cs with e1 | ⟨cs', ch1⟩ <;> simp only [hl] at h
      · cases h
      injection h with h1
      injection h1 with h2
      injection h2 with h3 h4
      rw [← h3]
      exact .node tg tx tx cs cs' (fun _ _ => rfl) (updDMList_ppres rules cs (cs', ch1) hl)
    · rcases hl : rwDMList rules cs with e1 | o <;> simp only [hl] at h
      · cases h
      rcases o with _ | ⟨cs', ch1⟩ <;> simp only at h
      · cases h
      injection h with h1
      injection h1 with h2
      injection h2 with h3 h4
      rw [← h3]
      exact .node tg tx tx cs cs' (fun _ _ => rfl) (rwDMList_ppres rules cs cs' ch1 hl)

theorem rwDMList_ppres (rules : MRules) :
    ∀ (l : List XElem) (l' : List XElem) (ch : List MChange),
      rwDMList rules l = .ok (some (l', ch)) → PPresL l l'
  | [], l', ch, h => by cases h
  | c :: cs, l', ch, h => by
    unfold rwDMList at h
    rcases hc : rwDMElem rules c with e1 | o <;> simp only [hc] at h
    · cases h
    rcases o with _ | ⟨c', ch1⟩ <;> simp only at h
    · rcases hcs : rwDMList rules cs with e2 | o2 <;> simp only [hcs] at h
      · cases h
      rcases o2 with _ | ⟨cs', ch2⟩ <;> simp only at h
      · cases h
      injection h with h1
      injection h1 with h2
      injection h2 with h3 h4
      rw [← h3]
      exact .keep (ppres_refl c) (rwDMList_ppres rules cs cs' ch2 hcs)
    · injection h with h1
      injection h1 with h2
      injection h2 with h3 h4
      rw [← h3]
      exact .keep (rwDMElem_ppres rules c c' ch1 hc) (ppresl_refl cs)
end

mutual
theorem depsElem_ppres (f : List XElem → Except String (List XElem × List MChange))
    (Hf : ∀ cs out, f cs = .ok out → PPresL cs out.1) :
    ∀ (e : XElem) (out : XElem × List MChange),
      depsElem f e = .ok out → PPres e out.1
  | .node tg tx cs, out, h => by
    unfold depsElem at h
    rcases hl : depsList f (tg == "dependencies") cs with e1 | ⟨cs', ch⟩ <;> simp only [hl] at h
    · cases h
    injection h with h1
    rw [← h1]
    exact .node tg tx tx cs cs' (fun _ _ => rfl)
      (depsList_ppres f Hf (tg == "dependencies") cs (cs', ch) hl)

theorem depsList_ppres (f : List XElem → Except String (List XElem × List MChange))
    (Hf : ∀ cs out, f cs = .ok out → PPresL cs out.1) (under : Bool) :
    ∀ (l : List XElem) (out : List XElem × List MChange),
      depsList f under l = .ok out → PPresL l out.1
  | [], out, h => by
    injection h with h1
    rw [← h1]
    exact .nil
  | c :: cs, out, h => by
    unfold depsList at h
    rcases hc : depsElem f c with e1 | ⟨c1, chIn⟩ <;> simp only [hc] at h
    · cases h
    have pc : PPres c c1 := depsElem_ppres f Hf c (c1, chIn) hc
    split at h
    · cases h
    · next c2 chS heq =>
      rcases hcs : depsList f under cs with e3 | ⟨rest, chR⟩ <;> simp only [hcs] at h
      · cases h
      injection h with h1
      rw [← h1]
      refine .keep ?_ (depsList_ppres f Hf under cs (rest, chR) hcs)
      split at heq
      · rcases hf : f c1.children with e2 | ⟨k2, chS2⟩ <;> simp only [hf] at heq
        · cases heq
        injection heq with h2
        have h2a : XElem.node c1.tag c1.text k2 = c2 := congrArg Prod.fst h2
        rw [← h2a]
        cases pc with
        | node tg tx tx' cs0 cs0' hcond hl0 =>
          exact .node tg tx tx' cs0 k2 hcond (ppresl_trans hl0 (Hf _ (k2, chS2) hf))
      · injection heq with h2
        have h2a : c1 = c2 := congrArg Prod.fst h2
        rw [← h2a]
        exact pc
end

theorem updateDM_ppres (rules : MRules) (t : XElem) (out : XElem × List MChange)
    (h : updateDependencyManagement rules t = .ok out) : PPres t out.1 := by
  unfold updateDependencyManagement at h
  rcases ho : rwDMList rules t.children with e1 | o <;> simp only [ho] at h
  · cases h
  rcases o with _ | ⟨cs', ch⟩ <;> simp only at h
  · injection h with h1
    rw [← h1]
    exact ppres_refl t
  · injection h with h1
    rw [← h1]
    cases t with
    | node tg tx cs =>
      exact .node tg tx tx cs cs' (fun _ _ => rfl) (rwDMList_ppres rules cs cs' ch ho)

theorem cleanup_ppres (managed : List String) (boms : List BOMInfo) (t : XElem)
    (out : XElem × List MChange)
    (h : cleanupManagedVersions managed boms t = .ok out) : PPres t out.1 := by
  unfold cleanupManagedVersions at h
  rcases he : hasEapBom boms with e1 | b <;> simp only [he] at h
  · cases h
  rcases b <;> simp only at h
  · injection h with h1
    rw [← h1]
    exact ppres_refl t
  · rcases hd : depsList (depEntryD managed) false t.children with e2 | ⟨cs', ch⟩ <;>
      simp only [hd] at h
    · cases h
    injection h with h1
    rw [← h1]
    cases t with
    | node tg tx cs =>
      exact .node tg tx tx cs cs' (fun _ _ => rfl)
        (depsList_ppres (depEntryD managed) (depEntryD_ppresl managed) false cs (cs', ch) hd)

/-! ## The claims -/


/-- C1: the claim states that a second run of the pipeline, in particular of
`_update_dependency_management`, appends no change record for an entry whose
coordinate key is still in the rule table.  The code refutes it: the
`org.hibernate:hibernate-core` rule supplies only a version, so the phase
maps `pomHib` to the very same tree while appending one record; the run on
the first run's output (the identical tree) therefore appends the same
nonempty record list again, and `migrate_file` reports one replacement on
every run. -/
theorem C1_managed_rewrite_not_idempotent :
    updateDependencyManagement defaultRules pomHib = .ok (pomHib, [hibChange]) ∧
    (migrateFile defaultRules defaultManaged true (.ok pomHib) true).replacements = 1 ∧
    [hibChange] ≠ ([] : List MChange) :=
  ⟨rfl, rfl, by simp⟩

/-- C2: with the cleanup precondition satisfied (an active BOM whose
artifact id contains the marker), `_cleanup_managed_versions` deletes the
version element of a managed-set dependency with a literal version even
though it is declared INSIDE dependencyManagement: the broken
`find("..")` ancestor probe never detects the section, contradicting the
claim (and the code's own comments) that only dependencies outside the
managed section are touched. -/
theorem C2_cleanup_strips_inside_dep_mgmt :
    extractActiveBoms pomC2 = [bomInfoEap] ∧
    cleanupManagedVersions defaultManaged (extractActiveBoms pomC2) pomC2 =
      .ok (pomC2After,
        [MChange.versionRemoved "jakarta.ejb:jakarta.ejb-api" (some "4.0.1") "Managed by BOM"]) :=
  ⟨rfl, rfl⟩

/-- C3 counterexample: on `pomC3` the cleanup phase removes a version
element whose text is the placeholder `${v}`: it is nested inside a version
element with literal text `4.0.1`, and removing the enclosing element drops
the whole subtree.  The input holds one placeholder version element, the
output none. -/
theorem C3_cx_nested_placeholder_removed :
    cleanupManagedVersions defaultManaged (extractActiveBoms pomC3) pomC3 =
      .ok (pomC3After,
        [MChange.versionRemoved "jakarta.ejb:jakarta.ejb-api" (some "4.0.1") "Managed by BOM"]) ∧
    countPhE pomC3 = 1 ∧ countPhE pomC3After = 0 :=
  ⟨rfl, rfl, rfl⟩

/-- C3 (amended): Phase 1 and Phase 4 never change the text of a version
element whose text is a property placeholder and never remove a version
element whose own text is one; an element may only be dropped when it is a
version element with non-placeholder text (so a placeholder version can
disappear only by sitting inside such a removed element, and Phase 1, which
drops nothing, preserves every placeholder unchanged).  `PPres` bounds the
damage a phase may do. -/
theorem C3_placeholder_versions_protected :
    (∀ (rules : MRules) (t : XElem) (out : XElem × List MChange),
      updateDependencyManagement rules t = .ok out → PPres t out.1) ∧
    (∀ (managed : List String) (boms : List BOMInfo) (t : XElem)
        (out : XElem × List MChange),
      cleanupManagedVersions managed boms t = .ok out → PPres t out.1) :=
  ⟨updateDM_ppres, cleanup_ppres⟩

theorem C3_placeholder_versions_protected_w : PPres pomC3 pomC3After :=
  C3_placeholder_versions_protected.2 defaultManaged (extractActiveBoms pomC3) pomC3
    (pomC3After,
      [MChange.versionRemoved "jakarta.ejb:jakarta.ejb-api" (some "4.0.1") "Managed by BOM"])
    rfl

/-- C4: `_extract_active_boms` yields a BOMInfo for an entry iff its first
scope child's text equals `import` AND its first type child's text equals
`pom` AND groupId and artifactId children are present; concretely, a
scope-only entry and a type-only entry produce an empty Active-BOM list. -/
theorem C4_bom_requires_scope_and_type :
    (∀ cs : List XElem, (bomOfKids cs).isSome =
      (((match findChild "scope" cs with
         | some s => s.text == some "import"
         | none => false)
        && (match findChild "type" cs with
            | some t => t.text == some "pom"
            | none => false))
       && ((findChild "groupId" cs).isSome && (findChild "artifactId" cs).isSome))) ∧
    extractActiveBoms pomScopeOnly = [] ∧ extractActiveBoms pomTypeOnly = [] := by
  refine ⟨fun cs => ?_, rfl, rfl⟩
  unfold bomOfKids
  split
  · next h =>
    rw [h]
    cases hg : findChild "groupId" cs <;> cases ha : findChild "artifactId" cs <;> simp
  · next h =>
    rw [Bool.not_eq_true] at h
    rw [h]
    simp

/-- C5 counterexample: in `pomC5` only the source (`1.8`) equals a legacy
level while the target is `11`, yet the plugin phase removes both elements,
inserts `release = 11` and produces one plugin-update record — the claim
says the configuration is left unchanged with no record when exactly one of
the two matches. -/
theorem C5_cx_single_legacy_value_fires :
    updatePlugins pomC5 =
      (pomC5After, [MChange.pluginUpdate "maven-compiler-plugin" "Updated to use release=11"]) ∧
    (updatePlugins pomC5).2.length = 1 :=
  ⟨rfl, rfl⟩

/-- C5 amended: the compiler-plugin adjustment fires as soon as AT LEAST
ONE of the source/target texts is a legacy level (`1.8` or `8`), removing
both elements and recording one plugin update; only when neither matches is
the configuration left unchanged with no record. -/
theorem C5_compiler_release_on_either_match :
    ∀ (cs : List XElem) (cfg src tgt : XElem),
      findChild "configuration" cs = some cfg →
      findChild "source" cfg.children = some src →
      findChild "target" cfg.children = some tgt →
      ((legacyLevel src.text || legacyLevel tgt.text) = false → pluginStep cs = (cs, [])) ∧
      ((legacyLevel src.text || legacyLevel tgt.text) = true →
        (pluginStep cs).2 =
          [MChange.pluginUpdate "maven-compiler-plugin" "Updated to use release=11"]) := by
  intro cs cfg src tgt hc hs ht
  unfold pluginStep
  simp only [hc, hs, ht]
  constructor
  · intro h; rw [h]; rfl
  · intro h; rw [h]; rfl

theorem C5_compiler_release_on_either_match_w :
    ((legacyLevel srcC5.text || legacyLevel tgtC5.text) = false →
      pluginStep plgC5Kids = (plgC5Kids, [])) ∧
    ((legacyLevel srcC5.text || legacyLevel tgtC5.text) = true →
      (pluginStep plgC5Kids).2 =
        [MChange.pluginUpdate "maven-compiler-plugin" "Updated to use release=11"]) :=
  C5_compiler_release_on_either_match plgC5Kids cfgC5 srcC5 tgtC5 rfl rfl rfl

/-- C6 counterexample: a property text with two `javax.` occurrences comes
out with BOTH rewritten to `jakarta.` (no `javax.` remains), while the
claim says only the first occurrence is replaced. -/
theorem C6_cx_all_occurrences_replaced :
    updateProperties pomC6 =
      (pomC6After,
        [MChange.propertyUpdate "api.pkgs" "javax.servlet,javax.ejb" "jakarta.servlet,jakarta.ejb"]) ∧
    pyIn "javax." "jakarta.servlet,jakarta.ejb" = false :=
  ⟨rfl, rfl⟩

/-- C6 amended: for a property (not a version-named one) whose text
contains `javax`, the rewrite replaces EVERY occurrence of `javax.` with
`jakarta.`, exactly Python `str.replace`. -/
theorem C6_javax_replaced_everywhere :
    ∀ (nm t : String), pyIn "javax" t = true → pyIn "version" (pyLower nm) = false →
      propNewText nm t = pyReplace t "javax." "jakarta." := by
  intro nm t h1 h2
  unfold propNewText
  rw [h1, h2]
  rfl

theorem C6_javax_replaced_everywhere_w :
    propNewText "api.pkgs" "javax.servlet,javax.ejb" =
      pyReplace "javax.servlet,javax.ejb" "javax." "jakarta." :=
  C6_javax_replaced_everywhere "api.pkgs" "javax.servlet,javax.ejb" rfl rfl

/-- C7 counterexample: a rule whose replacement coordinate does not split
into two colon-separated fields makes Phase 1 raise, and `migrate_file`
aborts the whole file with a file-level error and an empty change list —
the property of `pomC7` that an empty rule table would rewrite (third
conjunct) is never processed.  The claim says the rule is skipped and the
remaining entries and phases of the file continue. -/
theorem C7_cx_malformed_rule_aborts_file :
    updateDependencyManagement badRules pomC7 =
      .error "not enough values to unpack (expected 2, got 1)" ∧
    migrateFile badRules defaultManaged false (.ok pomC7) true =
      { modified := false, replacements := 0,
        errors := ["Unexpected error: not enough values to unpack (expected 2, got 1)"],
        details := [] } ∧
    (migrateFile [] defaultManaged false (.ok pomC7) true).replacements = 1 :=
  ⟨rfl, rfl, rfl⟩

/-- C7 amended: a rule entry whose replacement coordinate does not split
into exactly two colon-separated fields raises a ValueError in the rewrite
phase; the error is caught at the file boundary, so `migrate_file` returns
normally with one error, modified = false and no change records — the
file's migration is aborted rather than the rule being skipped. -/
theorem C7_malformed_rule_error_caught_at_file :
    (∀ (na : String), (pySplit na ":").length ≠ 2 →
      ∀ (rules : MRules) (cs : List XElem) (gid aid : XElem) (m : RuleEntry),
        findChild "groupId" cs = some gid → findChild "artifactId" cs = some aid →
        lookupRule rules (pyOptStr gid.text ++ ":" ++ pyOptStr aid.text) = some m →
        m.newArtifact = some na →
        ∃ msg, depMgmtEntry rules cs = .error msg) ∧
    (∀ (rules : MRules) (managed : List String) (dryRun writeOk : Bool)
        (root : XElem) (msg : String),
      updateDependencyManagement rules root = .error msg →
      migrateFile rules managed dryRun (.ok root) writeOk =
        { modified := false, replacements := 0,
          errors := ["Unexpected error: " ++ msg], details := [] }) := by
  constructor
  · intro na hna rules cs gid aid m hg ha hl hm
    unfold depMgmtEntry
    simp only [hg, ha, hl, hm]
    rcases hsp : pySplit na ":" with _ | ⟨x, _ | ⟨y, _ | ⟨z, t⟩⟩⟩
    · exact ⟨_, rfl⟩
    · exact ⟨_, rfl⟩
    · exact absurd (by rw [hsp]; rfl) hna
    · exact ⟨_, rfl⟩
  · intro rules managed dryRun writeOk root msg h
    simp only [migrateFile, h]
    rfl

theorem C7_malformed_rule_error_caught_at_file_w :
    (∃ msg, depMgmtEntry badRules c7Kids = .error msg) ∧
    migrateFile badRules defaultManaged false (.ok pomC7) true =
      { modified := false, replacements := 0,
        errors := ["Unexpected error: " ++ "not enough values to unpack (expected 2, got 1)"],
        details := [] } :=
  ⟨C7_malformed_rule_error_caught_at_file.1 "brokenvalue" (by decide) badRules c7Kids
      (.node "groupId" (some "com.legacy") []) (.node "artifactId" (some "widget") [])
      { newArtifact := some "brokenvalue", newVersion := none } rfl rfl rfl rfl,
   C7_malformed_rule_error_caught_at_file.2 badRules defaultManaged false true pomC7
      "not enough values to unpack (expected 2, got 1)" rfl⟩

/-- C8: for every rule table, managed set, dry-run flag, parse outcome and
write outcome, the result of `migrate_file` never combines a non-empty
error list with a true modified flag: parse failures and phase exceptions
are caught before the flag is set, and a failed write forces it back to
false. -/
theorem C8_errors_exclude_modified :
    ∀ (rules : MRules) (managed : List String) (dryRun : Bool)
      (parsed : Except String XElem) (writeOk : Bool),
      (migrateFile rules managed dryRun parsed writeOk).errors = [] ∨
      (migrateFile rules managed dryRun parsed writeOk).modified = false := by
  intro rules managed dryRun parsed writeOk
  rcases parsed with e | root
  · exact Or.inr rfl
  · simp only [migrateFile]
    rcases h1 : updateDependencyManagement rules root with e | ⟨r1, ch1⟩ <;> simp only [h1]
    · exact Or.inr rfl
    rcases h2 : migrateDependencies rules r1 with e | ⟨r2, ch2⟩ <;> simp only [h2]
    · exact Or.inr rfl
    rcases h3 : cleanupManagedVersions managed (extractActiveBoms r1) r2 with e | ⟨r3, ch3⟩ <;>
      simp only [h3]
    · exact Or.inr rfl
    split
    · split
      · exact Or.inl rfl
      · exact Or.inr rfl
    · exact Or.inl rfl

/-- C9: `migrate_file` with dry_run=true and with dry_run=false on the same
parsed input produces the identical detail list and the identical
replacement count, whatever the filesystem does to either run's write. -/
theorem C9_dry_run_same_records :
    ∀ (rules : MRules) (managed : List String) (parsed : Except String XElem)
      (w1 w2 : Bool),
      (migrateFile rules managed true parsed w1).details =
        (migrateFile rules managed false parsed w2).details ∧
      (migrateFile rules managed true parsed w1).replacements =
        (migrateFile rules managed false parsed w2).replacements := by
  intro rules managed parsed w1 w2
  rcases parsed with e | root
  · exact ⟨rfl, rfl⟩
  · simp only [migrateFile]
    rcases h1 : updateDependencyManagement rules root with e | ⟨r1, ch1⟩ <;> simp only [h1]
    · trivial
    rcases h2 : migrateDependencies rules r1 with e | ⟨r2, ch2⟩ <;> simp only [h2]
    · trivial
    rcases h3 : cleanupManagedVersions managed (extractActiveBoms r1) r2 with e | ⟨r3, ch3⟩ <;>
      simp only [h3]
    · trivial
    constructor <;> (repeat' split) <;> rfl

/-- C10: whenever a dependencyManagement entry's groupId and artifactId are
present and its key is in the rule table, the Phase-1 entry processing that
returns normally appends exactly one change record — also when nothing in
the entry is actually rewritten; consequently `migrate_file` on `pomHib`
(whose only entry is already fully migrated and is mapped to itself)
reports modified = true. -/
theorem C10_rule_match_always_records :
    (∀ (rules : MRules) (cs : List XElem) (gid aid : XElem) (m : RuleEntry)
        (out : List XElem × List MChange),
      findChild "groupId" cs = some gid → findChild "artifactId" cs = some aid →
      lookupRule rules (pyOptStr gid.text ++ ":" ++ pyOptStr aid.text) = some m →
      depMgmtEntry rules cs = .ok out → out.2.length = 1) ∧
    (migrateFile defaultRules defaultManaged false (.ok pomHib) true).modified = true := by
  constructor
  · intro rules cs gid aid m out hg ha hl hout
    unfold depMgmtEntry at hout
    simp only [hg, ha, hl] at hout
    repeat' split at hout
    all_goals try cases hout
    all_goals rfl
  · rfl

theorem C10_w :
    ((dHibKids, [hibChange]) : List XElem × List MChange).2.length = 1 :=
  C10_rule_match_always_records.1 defaultRules dHibKids gidHib aidHib ruleHib
    (dHibKids, [hibChange]) rfl rfl rfl rfl

end Pom
